import Mathlib

/-!
A shallow embedding of the transaction-submission engine of
`rushrs/solana-transactor` (files `src/error.rs` and
`src/transaction_service.rs`), together with theorems settling the
specification's claims about it.

Modelling conventions:
* The RPC client (`solana_client::rpc_client::RpcClient`) is an oracle
  (`RpcClientModel`): each of its operations is a function from the attempt
  number on which it is called (plus its real arguments) to the reply the
  remote node gives on that call.  Transport errors are the `Except.error`
  side, carrying the message that `err.to_string()` would produce.
* Blockhashes, public keys and signatures are opaque and modelled as `Nat`.
* `submit_transaction`'s retry loop is the recursion `submitLoop` on the
  1-based attempt number: Rust's `loop` starts with `attempt += 1`, so one
  loop iteration with counter value `a` is `submitLoop ... a`, and both a
  blockhash-fetch failure (`continue`) and a retriable send failure re-enter
  the loop as `submitLoop ... (a + 1)`.
* Besides its result, the loop returns the trace of observable actions
  (`Event`): backoff sleeps, blockhash fetches with the 1000 ms wait after a
  failed fetch, and transaction sends.
* The backoff `Duration::from_millis(500 * 2u64.pow(attempt - 2))` is u64
  arithmetic; it is modelled with an explicit `% 2 ^ 64` (`backoff_ms`).
-/

/-- The error taxonomy, from `src/error.rs` (`enum TransactionError`). -/
inductive TransactionError where
  | RpcError (msg : String)
  | SendError (msg : String)
  | ConfirmationError (msg : String)
  | MaxRetriesExceeded
  | InvalidInstruction (msg : String)
  | InsufficientFunds
  | Other (msg : String)
  deriving DecidableEq

/-- Does the pattern occur at the head of the character list?
(Case-sensitive, character for character.) -/
def leadsWith : List Char → List Char → Bool
  | [], _ => true
  | _ :: _, [] => false
  | p :: ps, c :: cs => p == c && leadsWith ps cs

/-- Does the pattern occur contiguously anywhere in the character list? -/
def occursIn (pat : List Char) : List Char → Bool
  | [] => leadsWith pat []
  | c :: rest => leadsWith pat (c :: rest) || occursIn pat rest

/-- Rust's `str::contains` for a string pattern: case-sensitive contiguous
substring search, as used by `is_retriable_error`. -/
def strContains (msg pat : String) : Bool :=
  occursIn pat.data msg.data

/-- The mathematical statement that `pat` occurs in `msg` as a contiguous
(case-sensitive) substring. -/
def containsSub (msg pat : String) : Prop :=
  ∃ u v, msg.data = u ++ pat.data ++ v

/-- An opaque ledger instruction (`solana_sdk::instruction::Instruction`). -/
structure Instr where
  program_id : Nat
  data : List Nat
  deriving DecidableEq

/-- A signing keypair; only its public key is observable
(`payer.pubkey()`). -/
structure Keypair where
  pubkey : Nat
  deriving DecidableEq

/-- `Message::new(&instructions, Some(&payer.pubkey()))`. -/
structure Message where
  instructions : List Instr
  payer : Option Nat
  deriving DecidableEq

def Message.new (instructions : List Instr) (payer : Option Nat) : Message :=
  ⟨instructions, payer⟩

/-- A transaction: the message, the recent blockhash it was signed against,
and the public keys that signed it.  `Transaction::new_unsigned` leaves the
blockhash and signer set empty; `tx.sign(&[payer], recent_blockhash)` fills
both. -/
structure Transaction where
  message : Message
  recent_blockhash : Nat
  signers : List Nat
  deriving DecidableEq

def Transaction.new_unsigned (message : Message) : Transaction :=
  ⟨message, 0, []⟩

def Transaction.sign (tx : Transaction) (keypairs : List Keypair) (recent_blockhash : Nat) :
    Transaction :=
  { tx with recent_blockhash := recent_blockhash, signers := keypairs.map Keypair.pubkey }

/-- Commitment level passed to confirmation
(`CommitmentConfig::confirmed()`). -/
inductive CommitmentLevel where
  | processed
  | confirmed
  | finalized
  deriving DecidableEq

/-- Oracle model of the RPC client.  Each field maps the index of the call
(for the submission loop: the attempt number) and the call's arguments to
the node's reply; `Except.error m` is a transport failure whose
`to_string()` is `m`. -/
structure RpcClientModel where
  get_balance : Nat → Except String Nat
  get_latest_blockhash : Nat → Except String Nat
  send_transaction : Nat → Transaction → Except String Nat
  confirm_transaction : Nat → Nat → CommitmentLevel → Except String Bool

/-- `TransactionService { client, max_retries }` from
`src/transaction_service.rs`. -/
structure TransactionService where
  client : RpcClientModel
  max_retries : Nat

def TransactionService.new (client : RpcClientModel) (max_retries : Nat) :
    TransactionService :=
  ⟨client, max_retries⟩

/-- `get_balance`: one client call; a transport error is wrapped as
`RpcError`. -/
def TransactionService.get_balance (s : TransactionService) (pubkey : Nat) :
    Except TransactionError Nat :=
  match s.client.get_balance pubkey with
  | Except.ok balance => Except.ok balance
  | Except.error err => Except.error (TransactionError.RpcError err)

/-- `is_retriable_error` from `src/transaction_service.rs`. -/
def TransactionService.is_retriable_error : TransactionError → Bool
  | TransactionError.RpcError _ => true
  | TransactionError.SendError msg =>
      strContains msg "blockhash not found"
        || strContains msg "timeout"
        || strContains msg "socket closed"
        || strContains msg "retry rate limit"
        || strContains msg "too many requests"
  | TransactionError.ConfirmationError msg =>
      strContains msg "timeout" || strContains msg "connection closed"
  | _ => false

/-- `send_and_confirm_transaction`: send, then wait for confirmation at
commitment level `confirmed`.  `attempt` is the oracle index of this
call. -/
def TransactionService.send_and_confirm_transaction (s : TransactionService)
    (attempt : Nat) (tx : Transaction) : Except TransactionError Nat :=
  match s.client.send_transaction attempt tx with
  | Except.error err => Except.error (TransactionError.SendError err)
  | Except.ok signature =>
    match s.client.confirm_transaction attempt signature CommitmentLevel.confirmed with
    | Except.ok result =>
        if !result then
          Except.error (TransactionError.ConfirmationError "Transaction was not confirmed")
        else
          Except.ok signature
    | Except.error err => Except.error (TransactionError.ConfirmationError err)

/-- The backoff delay in milliseconds computed at the top of attempt
`attempt`: `500 * 2u64.pow(attempt - 2)`, with u64 wrap-around made
explicit. -/
def backoff_ms (attempt : Nat) : Nat :=
  500 * (2 ^ (attempt - 2) % 2 ^ 64) % 2 ^ 64

/-- Observable actions of the submission loop, in order. -/
inductive Event where
  /-- The exponential-backoff sleep performed at the top of `attempt`. -/
  | backoffSleep (attempt : Nat) (ms : Nat)
  /-- A successful `get_latest_blockhash` on `attempt`. -/
  | fetchOk (attempt : Nat) (blockhash : Nat)
  /-- A failed `get_latest_blockhash` on `attempt` followed by the fixed
  `blockhash_query_interval` sleep of `ms` milliseconds. -/
  | fetchErrWait (attempt : Nat) (msg : String) (ms : Nat)
  /-- The signed transaction handed to `send_and_confirm_transaction` on
  `attempt`. -/
  | sendTx (attempt : Nat) (tx : Transaction)
  deriving DecidableEq

/-- One iteration of `submit_transaction`'s `loop`, entered with the
already-incremented counter value `attempt` (the source increments at the
top, starting from 0, so the first iteration runs with `attempt = 1`).
Returns the trace of events of this and all later iterations, and the
result. -/
def TransactionService.submitLoop (s : TransactionService) (payer : Keypair)
    (instructions : List Instr) (attempt : Nat) :
    List Event × Except TransactionError Nat :=
  if s.max_retries + 1 < attempt then
    ([], Except.error TransactionError.MaxRetriesExceeded)
  else
    let pre : List Event :=
      if 1 < attempt then [Event.backoffSleep attempt (backoff_ms attempt)] else []
    match s.client.get_latest_blockhash attempt with
    | Except.error msg =>
        (pre ++ Event.fetchErrWait attempt msg 1000
            :: (s.submitLoop payer instructions (attempt + 1)).1,
          (s.submitLoop payer instructions (attempt + 1)).2)
    | Except.ok recent_blockhash =>
        let message := Message.new instructions (some payer.pubkey)
        let tx := (Transaction.new_unsigned message).sign [payer] recent_blockhash
        match s.send_and_confirm_transaction attempt tx with
        | Except.ok signature =>
            (pre ++ [Event.fetchOk attempt recent_blockhash, Event.sendTx attempt tx],
              Except.ok signature)
        | Except.error err =>
            if !TransactionService.is_retriable_error err then
              (pre ++ [Event.fetchOk attempt recent_blockhash, Event.sendTx attempt tx],
                Except.error err)
            else
              (pre ++ Event.fetchOk attempt recent_blockhash
                  :: Event.sendTx attempt tx
                  :: (s.submitLoop payer instructions (attempt + 1)).1,
                (s.submitLoop payer instructions (attempt + 1)).2)
  termination_by s.max_retries + 2 - attempt
  decreasing_by all_goals omega

/-- `submit_transaction`: run the retry loop from its first iteration. -/
def TransactionService.submit_transaction (s : TransactionService) (payer : Keypair)
    (instructions : List Instr) : List Event × Except TransactionError Nat :=
  s.submitLoop payer instructions 1

/-- Number of send attempts recorded in a trace. -/
def sendCount (tr : List Event) : Nat :=
  (tr.filter fun e => match e with | Event.sendTx _ _ => true | _ => false).length

/-- Number of failed blockhash fetches recorded in a trace. -/
def fetchErrCount (tr : List Event) : Nat :=
  (tr.filter fun e => match e with | Event.fetchErrWait _ _ _ => true | _ => false).length

/-- Number of backoff sleeps recorded in a trace. -/
def backoffCount (tr : List Event) : Nat :=
  (tr.filter fun e => match e with | Event.backoffSleep _ _ => true | _ => false).length

/-- The attempt number an event belongs to. -/
def Event.attempt : Event → Nat
  | Event.backoffSleep a _ => a
  | Event.fetchOk a _ => a
  | Event.fetchErrWait a _ _ => a
  | Event.sendTx a _ => a

/-- The signed transaction built on an attempt that fetched blockhash
`bh`. -/
def txBuilt (payer : Keypair) (instructions : List Instr) (bh : Nat) : Transaction :=
  (Transaction.new_unsigned (Message.new instructions (some payer.pubkey))).sign [payer] bh

/-- Invariant satisfied by every event the loop emits from counter value
`lo` on: the event belongs to an attempt `≥ lo`, backoff sleeps carry the
computed backoff of their attempt (and only occur from attempt 2 on), fetch
events carry the client's reply of their attempt, and sent transactions are
the ones built and signed on their own attempt. -/
def eventWithin (s : TransactionService) (payer : Keypair) (instrs : List Instr)
    (lo : Nat) : Event → Prop
  | Event.backoffSleep a ms => lo ≤ a ∧ 2 ≤ a ∧ ms = backoff_ms a
  | Event.fetchOk a bh => lo ≤ a ∧ s.client.get_latest_blockhash a = Except.ok bh
  | Event.fetchErrWait a m ms =>
      lo ≤ a ∧ ms = 1000 ∧ s.client.get_latest_blockhash a = Except.error m
  | Event.sendTx a tx =>
      lo ≤ a ∧ s.client.get_latest_blockhash a = Except.ok tx.recent_blockhash ∧
        tx = txBuilt payer instrs tx.recent_blockhash

/-- A client whose blockhash fetches succeed and whose sends time out. -/
def clientTimeout : RpcClientModel where
  get_balance := fun _ => Except.ok 0
  get_latest_blockhash := fun _ => Except.ok 7
  send_transaction := fun _ _ => Except.error "timeout"
  confirm_transaction := fun _ _ _ => Except.ok true

/-- A client whose blockhash fetches always fail. -/
def clientFetchDown : RpcClientModel where
  get_balance := fun _ => Except.ok 0
  get_latest_blockhash := fun _ => Except.error "connection refused"
  send_transaction := fun _ _ => Except.error "timeout"
  confirm_transaction := fun _ _ _ => Except.ok true

/-- A client whose first send times out and whose later sends fail with a
message matching no retriable substring. -/
def clientFatalSecond : RpcClientModel where
  get_balance := fun _ => Except.ok 0
  get_latest_blockhash := fun _ => Except.ok 7
  send_transaction := fun a _ => if a = 1 then Except.error "timeout"
    else Except.error "unknown failure"
  confirm_transaction := fun _ _ _ => Except.ok true

/-- A client for which send and confirmation succeed at once. -/
def clientHappy : RpcClientModel where
  get_balance := fun _ => Except.ok 0
  get_latest_blockhash := fun _ => Except.ok 7
  send_transaction := fun _ _ => Except.ok 99
  confirm_transaction := fun _ _ _ => Except.ok true

def serviceTimeout1 : TransactionService := ⟨clientTimeout, 1⟩
def serviceTimeout57 : TransactionService := ⟨clientTimeout, 57⟩
def serviceFetchDown0 : TransactionService := ⟨clientFetchDown, 0⟩
def serviceFetchDown2 : TransactionService := ⟨clientFetchDown, 2⟩
def serviceFatalSecond : TransactionService := ⟨clientFatalSecond, 3⟩
def serviceHappy : TransactionService := ⟨clientHappy, 0⟩


theorem leadsWith_iff (p s : List Char) : leadsWith p s = true ↔ ∃ t, s = p ++ t := by
  induction p generalizing s with
  | nil => simp [leadsWith]
  | cons a ps ih =>
    cases s with
    | nil => simp [leadsWith]
    | cons c cs =>
      simp only [leadsWith, Bool.and_eq_true, beq_iff_eq, ih, List.cons_append,
        List.cons.injEq]
      constructor
      · rintro ⟨rfl, t, rfl⟩
        exact ⟨t, rfl, rfl⟩
      · rintro ⟨t, rfl, rfl⟩
        exact ⟨rfl, t, rfl⟩

theorem occursIn_iff (p s : List Char) : occursIn p s = true ↔ ∃ u v, s = u ++ p ++ v := by
  induction s with
  | nil =>
    simp only [occursIn, leadsWith_iff]
    constructor
    · rintro ⟨t, ht⟩
      exact ⟨[], t, by simpa using ht⟩
    · rintro ⟨u, v, huv⟩
      rcases List.append_eq_nil.mp (List.append_eq_nil.mp huv.symm).1 with ⟨rfl, rfl⟩
      exact ⟨v, by simpa using huv⟩
  | cons c cs ih =>
    simp only [occursIn, Bool.or_eq_true, leadsWith_iff, ih]
    constructor
    · rintro (⟨t, ht⟩ | ⟨u, v, huv⟩)
      · exact ⟨[], t, by simpa using ht⟩
      · exact ⟨c :: u, v, by simp [huv]⟩
    · rintro ⟨u, v, huv⟩
      cases u with
      | nil => exact Or.inl ⟨v, by simpa using huv⟩
      | cons x u' =>
        have h : c = x ∧ cs = u' ++ p ++ v := by simpa using huv
        exact Or.inr ⟨u', v, h.2⟩

theorem strContains_iff (msg pat : String) :
    strContains msg pat = true ↔ containsSub msg pat :=
  occursIn_iff pat.data msg.data

/-- Loop equation: once the counter passes `max_retries + 1`, the loop stops
with `MaxRetriesExceeded`. -/
theorem submitLoop_stop (s : TransactionService) (payer : Keypair) (instrs : List Instr)
    (attempt : Nat) (h : s.max_retries + 1 < attempt) :
    s.submitLoop payer instrs attempt = ([], Except.error TransactionError.MaxRetriesExceeded) := by
  rw [TransactionService.submitLoop.eq_def]
  simp [h]

/-- Loop equation: a failed blockhash fetch waits 1000 ms and re-enters the
loop with the counter incremented. -/
theorem submitLoop_fetchErr (s : TransactionService) (payer : Keypair) (instrs : List Instr)
    (attempt : Nat) (m : String) (hg : ¬ s.max_retries + 1 < attempt)
    (hfe : s.client.get_latest_blockhash attempt = Except.error m) :
    s.submitLoop payer instrs attempt =
      ((if 1 < attempt then [Event.backoffSleep attempt (backoff_ms attempt)] else []) ++
          Event.fetchErrWait attempt m 1000 :: (s.submitLoop payer instrs (attempt + 1)).1,
        (s.submitLoop payer instrs (attempt + 1)).2) := by
  rw [TransactionService.submitLoop.eq_def]
  simp only [if_neg hg, hfe]

/-- Loop equation: a successful send-and-confirm returns the signature. -/
theorem submitLoop_sendOk (s : TransactionService) (payer : Keypair) (instrs : List Instr)
    (attempt : Nat) (bh sig : Nat) (hg : ¬ s.max_retries + 1 < attempt)
    (hfe : s.client.get_latest_blockhash attempt = Except.ok bh)
    (hsc : s.send_and_confirm_transaction attempt (txBuilt payer instrs bh) = Except.ok sig) :
    s.submitLoop payer instrs attempt =
      ((if 1 < attempt then [Event.backoffSleep attempt (backoff_ms attempt)] else []) ++
          [Event.fetchOk attempt bh, Event.sendTx attempt (txBuilt payer instrs bh)],
        Except.ok sig) := by
  rw [TransactionService.submitLoop.eq_def]
  simp only [if_neg hg, hfe, txBuilt] at hsc ⊢
  simp [hsc]

/-- Loop equation: a non-retriable send-and-confirm error is returned at
once. -/
theorem submitLoop_sendFatal (s : TransactionService) (payer : Keypair) (instrs : List Instr)
    (attempt : Nat) (bh : Nat) (err : TransactionError) (hg : ¬ s.max_retries + 1 < attempt)
    (hfe : s.client.get_latest_blockhash attempt = Except.ok bh)
    (hsc : s.send_and_confirm_transaction attempt (txBuilt payer instrs bh) = Except.error err)
    (hnr : TransactionService.is_retriable_error err = false) :
    s.submitLoop payer instrs attempt =
      ((if 1 < attempt then [Event.backoffSleep attempt (backoff_ms attempt)] else []) ++
          [Event.fetchOk attempt bh, Event.sendTx attempt (txBuilt payer instrs bh)],
        Except.error err) := by
  rw [TransactionService.submitLoop.eq_def]
  simp only [if_neg hg, hfe, txBuilt] at hsc ⊢
  simp [hsc, hnr]

/-- Loop equation: a retriable send-and-confirm error re-enters the loop
with the counter incremented. -/
theorem submitLoop_sendRetry (s : TransactionService) (payer : Keypair) (instrs : List Instr)
    (attempt : Nat) (bh : Nat) (err : TransactionError) (hg : ¬ s.max_retries + 1 < attempt)
    (hfe : s.client.get_latest_blockhash attempt = Except.ok bh)
    (hsc : s.send_and_confirm_transaction attempt (txBuilt payer instrs bh) = Except.error err)
    (hr : TransactionService.is_retriable_error err = true) :
    s.submitLoop payer instrs attempt =
      ((if 1 < attempt then [Event.backoffSleep attempt (backoff_ms attempt)] else []) ++
          Event.fetchOk attempt bh
            :: Event.sendTx attempt (txBuilt payer instrs bh)
            :: (s.submitLoop payer instrs (attempt + 1)).1,
        (s.submitLoop payer instrs (attempt + 1)).2) := by
  rw [TransactionService.submitLoop.eq_def]
  simp only [if_neg hg, hfe, txBuilt] at hsc ⊢
  simp [hsc, hr]

theorem txBuilt_rbh (payer : Keypair) (instrs : List Instr) (bh : Nat) :
    (txBuilt payer instrs bh).recent_blockhash = bh := rfl

theorem eventWithin_mono (s : TransactionService) (payer : Keypair) (instrs : List Instr)
    (lo lo' : Nat) (h : lo' ≤ lo) (e : Event) (he : eventWithin s payer instrs lo e) :
    eventWithin s payer instrs lo' e := by
  cases e with
  | backoffSleep a ms => exact ⟨le_trans h he.1, he.2⟩
  | fetchOk a bh => exact ⟨le_trans h he.1, he.2⟩
  | fetchErrWait a m ms => exact ⟨le_trans h he.1, he.2⟩
  | sendTx a tx => exact ⟨le_trans h he.1, he.2⟩

theorem submitLoop_eventWithin (s : TransactionService) (payer : Keypair)
    (instrs : List Instr) :
    ∀ n attempt, s.max_retries + 2 ≤ attempt + n →
      ∀ e ∈ (s.submitLoop payer instrs attempt).1, eventWithin s payer instrs attempt e := by
  intro n
  induction n with
  | zero =>
    intro attempt h e he
    rw [submitLoop_stop s payer instrs attempt (by omega)] at he
    simp at he
  | succ n ih =>
    intro attempt h e he
    by_cases hg : s.max_retries + 1 < attempt
    · rw [submitLoop_stop s payer instrs attempt hg] at he
      simp at he
    · have hrec : ∀ e ∈ (s.submitLoop payer instrs (attempt + 1)).1,
          eventWithin s payer instrs attempt e := by
        intro e' he'
        exact eventWithin_mono s payer instrs (attempt + 1) attempt (by omega) e'
          (ih (attempt + 1) (by omega) e' he')
      have hpre : ∀ e ∈ (if 1 < attempt then
          [Event.backoffSleep attempt (backoff_ms attempt)] else ([] : List Event)),
          eventWithin s payer instrs attempt e := by
        intro e' he'
        by_cases h1 : 1 < attempt
        · simp [h1] at he'
          subst he'
          exact ⟨le_refl _, by omega, rfl⟩
        · simp [h1] at he'
      cases hfe : s.client.get_latest_blockhash attempt with
      | error m =>
        rw [submitLoop_fetchErr s payer instrs attempt m hg hfe] at he
        rcases List.mem_append.mp he with hin | hin
        · exact hpre e hin
        · rcases List.mem_cons.mp hin with rfl | hin
          · exact ⟨le_refl _, rfl, hfe⟩
          · exact hrec e hin
      | ok bh =>
        cases hsc : s.send_and_confirm_transaction attempt (txBuilt payer instrs bh) with
        | ok sig =>
          rw [submitLoop_sendOk s payer instrs attempt bh sig hg hfe hsc] at he
          rcases List.mem_append.mp he with hin | hin
          · exact hpre e hin
          · rcases List.mem_cons.mp hin with rfl | hin
            · exact ⟨le_refl _, hfe⟩
            · rcases List.mem_cons.mp hin with rfl | hin
              · exact ⟨le_refl _, by rw [txBuilt_rbh]; exact hfe, by rw [txBuilt_rbh]⟩
              · simp at hin
        | error err =>
          cases hret : TransactionService.is_retriable_error err with
          | false =>
            rw [submitLoop_sendFatal s payer instrs attempt bh err hg hfe hsc hret] at he
            rcases List.mem_append.mp he with hin | hin
            · exact hpre e hin
            · rcases List.mem_cons.mp hin with rfl | hin
              · exact ⟨le_refl _, hfe⟩
              · rcases List.mem_cons.mp hin with rfl | hin
                · exact ⟨le_refl _, by rw [txBuilt_rbh]; exact hfe, by rw [txBuilt_rbh]⟩
                · simp at hin
          | true =>
            rw [submitLoop_sendRetry s payer instrs attempt bh err hg hfe hsc hret] at he
            rcases List.mem_append.mp he with hin | hin
            · exact hpre e hin
            · rcases List.mem_cons.mp hin with rfl | hin
              · exact ⟨le_refl _, hfe⟩
              · rcases List.mem_cons.mp hin with rfl | hin
                · exact ⟨le_refl _, by rw [txBuilt_rbh]; exact hfe, by rw [txBuilt_rbh]⟩
                · exact hrec e hin

/-- Every event `submit_transaction` emits satisfies the loop invariant at
lower bound 1. -/
theorem submit_transaction_events (s : TransactionService) (payer : Keypair)
    (instrs : List Instr) :
    ∀ e ∈ (s.submit_transaction payer instrs).1, eventWithin s payer instrs 1 e :=
  submitLoop_eventWithin s payer instrs (s.max_retries + 1) 1 (by omega)

theorem sendCount_append (l1 l2 : List Event) :
    sendCount (l1 ++ l2) = sendCount l1 + sendCount l2 := by
  simp [sendCount, List.filter_append]

theorem fetchErrCount_append (l1 l2 : List Event) :
    fetchErrCount (l1 ++ l2) = fetchErrCount l1 + fetchErrCount l2 := by
  simp [fetchErrCount, List.filter_append]

theorem backoffCount_append (l1 l2 : List Event) :
    backoffCount (l1 ++ l2) = backoffCount l1 + backoffCount l2 := by
  simp [backoffCount, List.filter_append]

theorem counts_backoffPre (attempt : Nat) :
    sendCount (if 1 < attempt then [Event.backoffSleep attempt (backoff_ms attempt)] else []) = 0
    ∧ fetchErrCount
        (if 1 < attempt then [Event.backoffSleep attempt (backoff_ms attempt)] else []) = 0
    ∧ backoffCount
        (if 1 < attempt then [Event.backoffSleep attempt (backoff_ms attempt)] else [])
      = (if 1 < attempt then 1 else 0) := by
  by_cases h : 1 < attempt <;> simp [h, sendCount, fetchErrCount, backoffCount]

theorem sendCount_cons_fetchOk (a bh : Nat) (l : List Event) :
    sendCount (Event.fetchOk a bh :: l) = sendCount l := by
  simp [sendCount]

theorem sendCount_cons_fetchErr (a : Nat) (m : String) (ms : Nat) (l : List Event) :
    sendCount (Event.fetchErrWait a m ms :: l) = sendCount l := by
  simp [sendCount]

theorem sendCount_cons_send (a : Nat) (tx : Transaction) (l : List Event) :
    sendCount (Event.sendTx a tx :: l) = sendCount l + 1 := by
  simp [sendCount, List.filter_cons]

theorem fetchErrCount_cons_fetchErr (a : Nat) (m : String) (ms : Nat) (l : List Event) :
    fetchErrCount (Event.fetchErrWait a m ms :: l) = fetchErrCount l + 1 := by
  simp [fetchErrCount, List.filter_cons]

theorem fetchErrCount_cons_fetchOk (a bh : Nat) (l : List Event) :
    fetchErrCount (Event.fetchOk a bh :: l) = fetchErrCount l := by
  simp [fetchErrCount]

theorem fetchErrCount_cons_send (a : Nat) (tx : Transaction) (l : List Event) :
    fetchErrCount (Event.sendTx a tx :: l) = fetchErrCount l := by
  simp [fetchErrCount]

theorem backoffCount_cons_fetchOk (a bh : Nat) (l : List Event) :
    backoffCount (Event.fetchOk a bh :: l) = backoffCount l := by
  simp [backoffCount]

theorem backoffCount_cons_fetchErr (a : Nat) (m : String) (ms : Nat) (l : List Event) :
    backoffCount (Event.fetchErrWait a m ms :: l) = backoffCount l := by
  simp [backoffCount]

theorem backoffCount_cons_send (a : Nat) (tx : Transaction) (l : List Event) :
    backoffCount (Event.sendTx a tx :: l) = backoffCount l := by
  simp [backoffCount]

/-- When every blockhash fetch succeeds and every send-and-confirm fails
with a retriable error, the loop runs every remaining attempt: from counter
value `attempt` with `attempt + n = max_retries + 2` it performs `n` sends,
emits the backoff sleep of every remaining attempt `≥ 2`, and ends with
`MaxRetriesExceeded`. -/
theorem submitLoop_allRetriable (s : TransactionService) (payer : Keypair)
    (instrs : List Instr)
    (hf : ∀ a, ∃ bh, s.client.get_latest_blockhash a = Except.ok bh)
    (hr : ∀ a tx, ∃ e, s.send_and_confirm_transaction a tx = Except.error e ∧
        TransactionService.is_retriable_error e = true) :
    ∀ n attempt, attempt + n = s.max_retries + 2 →
      (s.submitLoop payer instrs attempt).2
          = Except.error TransactionError.MaxRetriesExceeded
        ∧ sendCount (s.submitLoop payer instrs attempt).1 = n
        ∧ ∀ a, 2 ≤ a → attempt ≤ a → a ≤ s.max_retries + 1 →
            Event.backoffSleep a (backoff_ms a) ∈ (s.submitLoop payer instrs attempt).1 := by
  intro n
  induction n with
  | zero =>
    intro attempt h
    rw [submitLoop_stop s payer instrs attempt (by omega)]
    refine ⟨rfl, by simp [sendCount], ?_⟩
    intro a _ h2 h3
    omega
  | succ n ih =>
    intro attempt h
    have hg : ¬ s.max_retries + 1 < attempt := by omega
    obtain ⟨bh, hfe⟩ := hf attempt
    obtain ⟨e, hsc, hret⟩ := hr attempt (txBuilt payer instrs bh)
    rw [submitLoop_sendRetry s payer instrs attempt bh e hg hfe hsc hret]
    obtain ⟨ih1, ih2, ih3⟩ := ih (attempt + 1) (by omega)
    refine ⟨ih1, ?_, ?_⟩
    · rw [sendCount_append, sendCount_cons_fetchOk, sendCount_cons_send,
        (counts_backoffPre attempt).1, ih2]
      omega
    · intro a h2 hlo hhi
      rcases Nat.eq_or_lt_of_le hlo with rfl | hlt
      · have h1a : 1 < attempt := by omega
        simp [h1a]
      · refine List.mem_append.mpr (Or.inr ?_)
        exact List.mem_cons.mpr (Or.inr (List.mem_cons.mpr (Or.inr
          (ih3 a h2 (by omega) hhi))))

/-- In every execution, the loop performs at most `n` sends when at most `n`
attempts remain. -/
theorem submitLoop_sendCount_le (s : TransactionService) (payer : Keypair)
    (instrs : List Instr) :
    ∀ n attempt, s.max_retries + 2 ≤ attempt + n →
      sendCount (s.submitLoop payer instrs attempt).1 ≤ n := by
  intro n
  induction n with
  | zero =>
    intro attempt h
    rw [submitLoop_stop s payer instrs attempt (by omega)]
    simp [sendCount]
  | succ n ih =>
    intro attempt h
    by_cases hg : s.max_retries + 1 < attempt
    · rw [submitLoop_stop s payer instrs attempt hg]
      simp [sendCount]
    · cases hfe : s.client.get_latest_blockhash attempt with
      | error m =>
        rw [submitLoop_fetchErr s payer instrs attempt m hg hfe]
        have := ih (attempt + 1) (by omega)
        rw [sendCount_append, sendCount_cons_fetchErr, (counts_backoffPre attempt).1]
        omega
      | ok bh =>
        cases hsc : s.send_and_confirm_transaction attempt (txBuilt payer instrs bh) with
        | ok sig =>
          rw [submitLoop_sendOk s payer instrs attempt bh sig hg hfe hsc]
          rw [sendCount_append, (counts_backoffPre attempt).1, sendCount_cons_fetchOk,
            sendCount_cons_send]
          simp [sendCount]
        | error err =>
          cases hret : TransactionService.is_retriable_error err with
          | false =>
            rw [submitLoop_sendFatal s payer instrs attempt bh err hg hfe hsc hret]
            rw [sendCount_append, (counts_backoffPre attempt).1, sendCount_cons_fetchOk,
              sendCount_cons_send]
            simp [sendCount]
          | true =>
            rw [submitLoop_sendRetry s payer instrs attempt bh err hg hfe hsc hret]
            have := ih (attempt + 1) (by omega)
            rw [sendCount_append, (counts_backoffPre attempt).1, sendCount_cons_fetchOk,
              sendCount_cons_send]
            omega

/-- When every blockhash fetch fails, the loop performs no sends: each
remaining attempt records one failed fetch with its 1000 ms wait, and the
loop ends with `MaxRetriesExceeded`. -/
theorem submitLoop_allFetchErr (s : TransactionService) (payer : Keypair)
    (instrs : List Instr)
    (hf : ∀ a, ∃ m, s.client.get_latest_blockhash a = Except.error m) :
    ∀ n attempt, attempt + n = s.max_retries + 2 →
      (s.submitLoop payer instrs attempt).2
          = Except.error TransactionError.MaxRetriesExceeded
        ∧ fetchErrCount (s.submitLoop payer instrs attempt).1 = n
        ∧ sendCount (s.submitLoop payer instrs attempt).1 = 0 := by
  intro n
  induction n with
  | zero =>
    intro attempt h
    rw [submitLoop_stop s payer instrs attempt (by omega)]
    simp [sendCount, fetchErrCount]
  | succ n ih =>
    intro attempt h
    have hg : ¬ s.max_retries + 1 < attempt := by omega
    obtain ⟨m, hfe⟩ := hf attempt
    rw [submitLoop_fetchErr s payer instrs attempt m hg hfe]
    obtain ⟨ih1, ih2, ih3⟩ := ih (attempt + 1) (by omega)
    refine ⟨ih1, ?_, ?_⟩
    · rw [fetchErrCount_append, fetchErrCount_cons_fetchErr,
        (counts_backoffPre attempt).2.1, ih2]
      omega
    · rw [sendCount_append, sendCount_cons_fetchErr, (counts_backoffPre attempt).1, ih3]

/-- A `send_and_confirm_transaction` failure is a `SendError` or a
`ConfirmationError`. -/
theorem sac_error_shape (s : TransactionService) (a : Nat) (tx : Transaction)
    (e : TransactionError) (h : s.send_and_confirm_transaction a tx = Except.error e) :
    (∃ m, e = TransactionError.SendError m)
      ∨ (∃ m, e = TransactionError.ConfirmationError m) := by
  unfold TransactionService.send_and_confirm_transaction at h
  cases hs : s.client.send_transaction a tx with
  | error m =>
    simp only [hs, Except.error.injEq] at h
    exact Or.inl ⟨m, h.symm⟩
  | ok sig =>
    simp only [hs] at h
    cases hc : s.client.confirm_transaction a sig CommitmentLevel.confirmed with
    | ok b =>
      simp only [hc] at h
      cases b with
      | false =>
        simp only [Bool.not_false, if_true, Except.error.injEq] at h
        exact Or.inr ⟨"Transaction was not confirmed", h.symm⟩
      | true => simp at h
    | error m =>
      simp only [hc, Except.error.injEq] at h
      exact Or.inr ⟨m, h.symm⟩

/-- Every error the loop can return is `MaxRetriesExceeded`, a `SendError`
or a `ConfirmationError`. -/
theorem submitLoop_error_shape (s : TransactionService) (payer : Keypair)
    (instrs : List Instr) :
    ∀ n attempt, s.max_retries + 2 ≤ attempt + n → ∀ e,
      (s.submitLoop payer instrs attempt).2 = Except.error e →
      e = TransactionError.MaxRetriesExceeded
        ∨ (∃ m, e = TransactionError.SendError m)
        ∨ (∃ m, e = TransactionError.ConfirmationError m) := by
  intro n
  induction n with
  | zero =>
    intro attempt h e he
    rw [submitLoop_stop s payer instrs attempt (by omega)] at he
    exact Or.inl (by simpa using he.symm)
  | succ n ih =>
    intro attempt h e he
    by_cases hg : s.max_retries + 1 < attempt
    · rw [submitLoop_stop s payer instrs attempt hg] at he
      exact Or.inl (by simpa using he.symm)
    · cases hfe : s.client.get_latest_blockhash attempt with
      | error m =>
        rw [submitLoop_fetchErr s payer instrs attempt m hg hfe] at he
        exact ih (attempt + 1) (by omega) e he
      | ok bh =>
        cases hsc : s.send_and_confirm_transaction attempt (txBuilt payer instrs bh) with
        | ok sig =>
          rw [submitLoop_sendOk s payer instrs attempt bh sig hg hfe hsc] at he
          simp at he
        | error err =>
          cases hret : TransactionService.is_retriable_error err with
          | false =>
            rw [submitLoop_sendFatal s payer instrs attempt bh err hg hfe hsc hret] at he
            have herr : err = e := by simpa using he
            exact Or.inr (herr ▸ sac_error_shape s attempt (txBuilt payer instrs bh) err hsc)
          | true =>
            rw [submitLoop_sendRetry s payer instrs attempt bh err hg hfe hsc hret] at he
            exact ih (attempt + 1) (by omega) e he

/-- One decomposed loop iteration: if every event of the middle segment
belongs to `attempt` and the tail already contains the backoff sleep of
every attempt `≥ 2` it mentions, the same holds of the whole segment. -/
theorem backoff_mem_of_parts (attempt : Nat) (mid rest : List Event)
    (hmid : ∀ x ∈ mid, Event.attempt x = attempt)
    (hrest : ∀ x ∈ rest, 2 ≤ Event.attempt x →
      Event.backoffSleep (Event.attempt x) (backoff_ms (Event.attempt x)) ∈ rest)
    (e : Event)
    (he : e ∈ (if 1 < attempt then [Event.backoffSleep attempt (backoff_ms attempt)]
        else []) ++ mid ++ rest)
    (h2 : 2 ≤ Event.attempt e) :
    Event.backoffSleep (Event.attempt e) (backoff_ms (Event.attempt e))
      ∈ (if 1 < attempt then [Event.backoffSleep attempt (backoff_ms attempt)]
        else []) ++ mid ++ rest := by
  rcases List.mem_append.mp he with hin | hin
  · rcases List.mem_append.mp hin with hin | hin
    · by_cases h1 : 1 < attempt
      · simp only [h1, if_true, List.mem_singleton] at hin
        subst hin
        simp [h1, Event.attempt]
      · simp [h1] at hin
    · have ha := hmid e hin
      have h1 : 1 < attempt := by rw [ha] at h2; omega
      rw [ha]
      simp [h1]
  · have hmem := hrest e hin h2
    simp only [List.mem_append]
    exact Or.inr hmem

/-- Every event of an attempt `≥ 2` is accompanied in the trace by that
attempt\'s backoff sleep. -/
theorem submitLoop_backoff_present (s : TransactionService) (payer : Keypair)
    (instrs : List Instr) :
    ∀ n attempt, s.max_retries + 2 ≤ attempt + n →
      ∀ e ∈ (s.submitLoop payer instrs attempt).1, 2 ≤ Event.attempt e →
        Event.backoffSleep (Event.attempt e) (backoff_ms (Event.attempt e))
          ∈ (s.submitLoop payer instrs attempt).1 := by
  intro n
  induction n with
  | zero =>
    intro attempt h e he _
    rw [submitLoop_stop s payer instrs attempt (by omega)] at he
    simp at he
  | succ n ih =>
    intro attempt h e he h2
    by_cases hg : s.max_retries + 1 < attempt
    · rw [submitLoop_stop s payer instrs attempt hg] at he
      simp at he
    · cases hfe : s.client.get_latest_blockhash attempt with
      | error m =>
        rw [submitLoop_fetchErr s payer instrs attempt m hg hfe] at he ⊢
        have hshape :
            ((if 1 < attempt then [Event.backoffSleep attempt (backoff_ms attempt)]
                else []) ++
                Event.fetchErrWait attempt m 1000
                  :: (s.submitLoop payer instrs (attempt + 1)).1,
              (s.submitLoop payer instrs (attempt + 1)).2).1
            = (if 1 < attempt then [Event.backoffSleep attempt (backoff_ms attempt)]
                else []) ++ [Event.fetchErrWait attempt m 1000]
                ++ (s.submitLoop payer instrs (attempt + 1)).1 := by
          simp
        rw [hshape] at he ⊢
        refine backoff_mem_of_parts attempt _ _ ?_ ?_ e he h2
        · intro x hx
          rcases List.mem_singleton.mp hx with rfl
          rfl
        · intro x hx hx2
          exact ih (attempt + 1) (by omega) x hx hx2
      | ok bh =>
        cases hsc : s.send_and_confirm_transaction attempt (txBuilt payer instrs bh) with
        | ok sig =>
          rw [submitLoop_sendOk s payer instrs attempt bh sig hg hfe hsc] at he ⊢
          have hshape :
              ((if 1 < attempt then [Event.backoffSleep attempt (backoff_ms attempt)]
                  else []) ++
                  [Event.fetchOk attempt bh, Event.sendTx attempt (txBuilt payer instrs bh)],
                (Except.ok sig : Except TransactionError Nat)).1
              = (if 1 < attempt then [Event.backoffSleep attempt (backoff_ms attempt)]
                  else []) ++
                  [Event.fetchOk attempt bh, Event.sendTx attempt (txBuilt payer instrs bh)]
                  ++ [] := by
            simp
          rw [hshape] at he ⊢
          refine backoff_mem_of_parts attempt _ [] ?_ (by simp) e he h2
          intro x hx
          rcases List.mem_cons.mp hx with rfl | hx
          · rfl
          · rcases List.mem_singleton.mp hx with rfl
            rfl
        | error err =>
          cases hret : TransactionService.is_retriable_error err with
          | false =>
            rw [submitLoop_sendFatal s payer instrs attempt bh err hg hfe hsc hret] at he ⊢
            have hshape :
                ((if 1 < attempt then [Event.backoffSleep attempt (backoff_ms attempt)]
                    else []) ++
                    [Event.fetchOk attempt bh, Event.sendTx attempt (txBuilt payer instrs bh)],
                  (Except.error err : Except TransactionError Nat)).1
                = (if 1 < attempt then [Event.backoffSleep attempt (backoff_ms attempt)]
                    else []) ++
                    [Event.fetchOk attempt bh, Event.sendTx attempt (txBuilt payer instrs bh)]
                    ++ [] := by
              simp
            rw [hshape] at he ⊢
            refine backoff_mem_of_parts attempt _ [] ?_ (by simp) e he h2
            intro x hx
            rcases List.mem_cons.mp hx with rfl | hx
            · rfl
            · rcases List.mem_singleton.mp hx with rfl
              rfl
          | true =>
            rw [submitLoop_sendRetry s payer instrs attempt bh err hg hfe hsc hret] at he ⊢
            have hshape :
                ((if 1 < attempt then [Event.backoffSleep attempt (backoff_ms attempt)]
                    else []) ++
                    Event.fetchOk attempt bh
                      :: Event.sendTx attempt (txBuilt payer instrs bh)
                      :: (s.submitLoop payer instrs (attempt + 1)).1,
                  (s.submitLoop payer instrs (attempt + 1)).2).1
                = (if 1 < attempt then [Event.backoffSleep attempt (backoff_ms attempt)]
                    else []) ++
                    [Event.fetchOk attempt bh, Event.sendTx attempt (txBuilt payer instrs bh)]
                    ++ (s.submitLoop payer instrs (attempt + 1)).1 := by
              simp
            rw [hshape] at he ⊢
            refine backoff_mem_of_parts attempt _ _ ?_ ?_ e he h2
            · intro x hx
              rcases List.mem_cons.mp hx with rfl | hx
              · rfl
              · rcases List.mem_singleton.mp hx with rfl
                rfl
            · intro x hx hx2
              exact ih (attempt + 1) (by omega) x hx hx2

/-- When fetches succeed up to attempt `k`, attempts before `k` fail
retriably, and attempt `k` fails with the non-retriable error `e`, the loop
entered at any attempt in `1..k` returns `e`, having sent once per attempt
up to `k` and slept once before every attempt except the first. -/
theorem submitLoop_firstFatal (s : TransactionService) (payer : Keypair)
    (instrs : List Instr) (k : Nat) (e : TransactionError)
    (hkR : k ≤ s.max_retries + 1)
    (hf : ∀ a, 1 ≤ a → a ≤ k → ∃ bh, s.client.get_latest_blockhash a = Except.ok bh)
    (hpre : ∀ a, 1 ≤ a → a < k → ∀ tx, ∃ err,
        s.send_and_confirm_transaction a tx = Except.error err ∧
        TransactionService.is_retriable_error err = true)
    (hk : ∀ tx, s.send_and_confirm_transaction k tx = Except.error e)
    (hnr : TransactionService.is_retriable_error e = false) :
    ∀ n attempt, attempt + n = k + 1 → 1 ≤ attempt → attempt ≤ k →
      (s.submitLoop payer instrs attempt).2 = Except.error e
        ∧ sendCount (s.submitLoop payer instrs attempt).1 = n
        ∧ backoffCount (s.submitLoop payer instrs attempt).1
            = n - (if attempt = 1 then 1 else 0) := by
  intro n
  induction n with
  | zero =>
    intro attempt h h1 hk'
    omega
  | succ n ih =>
    intro attempt h h1 hk'
    have hg : ¬ s.max_retries + 1 < attempt := by omega
    rcases Nat.eq_zero_or_pos n with rfl | hn
    · have hak : attempt = k := by omega
      subst hak
      obtain ⟨bh, hfe⟩ := hf attempt h1 (le_refl _)
      have hsc := hk (txBuilt payer instrs bh)
      rw [submitLoop_sendFatal s payer instrs attempt bh e hg hfe hsc hnr]
      refine ⟨rfl, ?_, ?_⟩
      · rw [sendCount_append, (counts_backoffPre attempt).1, sendCount_cons_fetchOk,
          sendCount_cons_send]
        simp [sendCount]
      · rw [backoffCount_append, (counts_backoffPre attempt).2.2, backoffCount_cons_fetchOk,
          backoffCount_cons_send]
        by_cases ha1 : attempt = 1
        · simp [ha1, backoffCount]
        · have : 1 < attempt := by omega
          simp [this, ha1, backoffCount]
    · obtain ⟨bh, hfe⟩ := hf attempt h1 (by omega)
      obtain ⟨err, hsc, hret⟩ := hpre attempt h1 (by omega) (txBuilt payer instrs bh)
      rw [submitLoop_sendRetry s payer instrs attempt bh err hg hfe hsc hret]
      obtain ⟨ih1, ih2, ih3⟩ := ih (attempt + 1) (by omega) (by omega) (by omega)
      refine ⟨ih1, ?_, ?_⟩
      · rw [sendCount_append, (counts_backoffPre attempt).1, sendCount_cons_fetchOk,
          sendCount_cons_send, ih2]
        omega
      · rw [backoffCount_append, (counts_backoffPre attempt).2.2, backoffCount_cons_fetchOk,
          backoffCount_cons_send, ih3, if_neg (show ¬ attempt + 1 = 1 by omega)]
        by_cases ha1 : attempt = 1
        · rw [if_pos ha1, if_neg (show ¬ 1 < attempt by omega)]
          omega
        · rw [if_neg ha1, if_pos (show 1 < attempt by omega)]
          omega

/-- For attempts `2..57` the u64 backoff computation does not overflow. -/
theorem backoff_ms_exact (k : Nat) (h2 : 2 ≤ k) (h57 : k ≤ 57) :
    backoff_ms k = 500 * 2 ^ (k - 2) := by
  unfold backoff_ms
  have hp : 2 ^ (k - 2) ≤ 2 ^ 55 := Nat.pow_le_pow_right (by norm_num) (by omega)
  have h1 : 2 ^ (k - 2) < 2 ^ 64 := lt_of_le_of_lt hp (by norm_num)
  rw [Nat.mod_eq_of_lt h1, Nat.mod_eq_of_lt (lt_of_le_of_lt
    (Nat.mul_le_mul_left 500 hp) (by norm_num))]

/-- From attempt 58 on the u64 backoff computation wraps around and no
longer equals the mathematical value. -/
theorem backoff_ms_overflow (k : Nat) (h : 58 ≤ k) :
    backoff_ms k ≠ 500 * 2 ^ (k - 2) := by
  have hlt : backoff_ms k < 2 ^ 64 := Nat.mod_lt _ (by norm_num)
  have h56 : (2 : Nat) ^ 56 ≤ 2 ^ (k - 2) := Nat.pow_le_pow_right (by norm_num) (by omega)
  have hge : 2 ^ 64 ≤ 500 * 2 ^ (k - 2) :=
    le_trans (by norm_num) (Nat.mul_le_mul_left 500 h56)
  omega

/-- With retries exhausted by always-retriable send timeouts and
`max_retries = 57`, attempt 58 is reached and its (wrapped) backoff sleep is
in the trace. -/
theorem serviceTimeout57_backoff58_mem :
    Event.backoffSleep 58 (backoff_ms 58)
      ∈ (serviceTimeout57.submit_transaction ⟨42⟩ []).1 :=
  (submitLoop_allRetriable serviceTimeout57 ⟨42⟩ [] (fun _ => ⟨7, rfl⟩)
      (fun _ _ => ⟨TransactionError.SendError "timeout", rfl, by decide⟩)
      58 1 (by decide)).2.2 58 (by decide) (by decide) (by decide)

/-- Claim C1: when every blockhash fetch succeeds and every send attempt
fails with a retriable error, `submit_transaction` performs exactly
`max_retries + 1` send attempts and then returns `MaxRetriesExceeded`; and
in every execution the number of send attempts is at most
`max_retries + 1`. -/
theorem submit_retriable_exhausts_budget (s : TransactionService) (payer : Keypair)
    (instrs : List Instr)
    (hf : ∀ a, ∃ bh, s.client.get_latest_blockhash a = Except.ok bh)
    (hr : ∀ a tx, ∃ e, s.send_and_confirm_transaction a tx = Except.error e ∧
        TransactionService.is_retriable_error e = true) :
    (s.submit_transaction payer instrs).2
        = Except.error TransactionError.MaxRetriesExceeded
      ∧ sendCount (s.submit_transaction payer instrs).1 = s.max_retries + 1
      ∧ ∀ (t : TransactionService) (payer' : Keypair) (instrs' : List Instr),
          sendCount (t.submit_transaction payer' instrs').1 ≤ t.max_retries + 1 := by
  obtain ⟨h1, h2, -⟩ :=
    submitLoop_allRetriable s payer instrs hf hr (s.max_retries + 1) 1 (by omega)
  exact ⟨h1, h2, fun t payer' instrs' =>
    submitLoop_sendCount_le t payer' instrs' (t.max_retries + 1) 1 (by omega)⟩

theorem submit_retriable_exhausts_budget_witness :
    (serviceTimeout1.submit_transaction ⟨42⟩ []).2
        = Except.error TransactionError.MaxRetriesExceeded
      ∧ sendCount (serviceTimeout1.submit_transaction ⟨42⟩ []).1 = 2 :=
  ⟨(submit_retriable_exhausts_budget serviceTimeout1 ⟨42⟩ [] (fun _ => ⟨7, rfl⟩)
      (fun _ _ => ⟨TransactionError.SendError "timeout", rfl, by decide⟩)).1,
    (submit_retriable_exhausts_budget serviceTimeout1 ⟨42⟩ [] (fun _ => ⟨7, rfl⟩)
      (fun _ _ => ⟨TransactionError.SendError "timeout", rfl, by decide⟩)).2.1⟩

/-- Counterexample to claim C2 as stated: with `max_retries = 0` and every
blockhash fetch failing, `submit_transaction` returns `MaxRetriesExceeded`
after a single failed fetch and zero sends — the fetch failure re-entered
the loop top, incremented the attempt counter and consumed the whole retry
budget, instead of retrying the fetch indefinitely within one nominal
attempt. -/
theorem fetch_failure_consumes_budget_cex :
    (serviceFetchDown0.submit_transaction ⟨42⟩ []).2
        = Except.error TransactionError.MaxRetriesExceeded
      ∧ (serviceFetchDown0.submit_transaction ⟨42⟩ []).1
        = [Event.fetchErrWait 1 "connection refused" 1000] := by
  have e1 := submitLoop_fetchErr serviceFetchDown0 ⟨42⟩ [] 1 "connection refused"
    (by decide) rfl
  have e2 := submitLoop_stop serviceFetchDown0 ⟨42⟩ [] 2 (by decide)
  constructor
  · show (serviceFetchDown0.submitLoop ⟨42⟩ [] 1).2 = _
    rw [e1]
    show (serviceFetchDown0.submitLoop ⟨42⟩ [] 2).2 = _
    rw [e2]
  · show (serviceFetchDown0.submitLoop ⟨42⟩ [] 1).1 = _
    rw [e1]
    show (if 1 < 1 then [Event.backoffSleep 1 (backoff_ms 1)] else []) ++
        Event.fetchErrWait 1 "connection refused" 1000
          :: (serviceFetchDown0.submitLoop ⟨42⟩ [] 2).1 = _
    rw [e2]
    simp

/-- Claim C2 (amended): a failed blockhash fetch makes the engine wait the
fixed 1000 ms interval and retry, but the retry re-enters the top of the
loop and increments the attempt counter, so fetch failures do count toward
the `max_retries` budget: if every fetch fails, `submit_transaction`
performs `max_retries + 1` failed fetches (each followed by its 1000 ms
wait), no sends, and returns `MaxRetriesExceeded`. -/
theorem fetch_failure_waits_and_counts (s : TransactionService) (payer : Keypair)
    (instrs : List Instr)
    (hf : ∀ a, ∃ m, s.client.get_latest_blockhash a = Except.error m) :
    (s.submit_transaction payer instrs).2
        = Except.error TransactionError.MaxRetriesExceeded
      ∧ fetchErrCount (s.submit_transaction payer instrs).1 = s.max_retries + 1
      ∧ sendCount (s.submit_transaction payer instrs).1 = 0
      ∧ ∀ (t : TransactionService) (payer' : Keypair) (instrs' : List Instr) a m ms,
          Event.fetchErrWait a m ms ∈ (t.submit_transaction payer' instrs').1 →
          ms = 1000 := by
  obtain ⟨h1, h2, h3⟩ :=
    submitLoop_allFetchErr s payer instrs hf (s.max_retries + 1) 1 (by omega)
  refine ⟨h1, h2, h3, ?_⟩
  intro t payer' instrs' a m ms hmem
  exact (submit_transaction_events t payer' instrs' _ hmem).2.1

theorem fetch_failure_waits_and_counts_witness :
    (serviceFetchDown2.submit_transaction ⟨42⟩ []).2
        = Except.error TransactionError.MaxRetriesExceeded
      ∧ fetchErrCount (serviceFetchDown2.submit_transaction ⟨42⟩ []).1 = 3
      ∧ sendCount (serviceFetchDown2.submit_transaction ⟨42⟩ []).1 = 0 :=
  ⟨(fetch_failure_waits_and_counts serviceFetchDown2 ⟨42⟩ []
      (fun _ => ⟨"connection refused", rfl⟩)).1,
    (fetch_failure_waits_and_counts serviceFetchDown2 ⟨42⟩ []
      (fun _ => ⟨"connection refused", rfl⟩)).2.1,
    (fetch_failure_waits_and_counts serviceFetchDown2 ⟨42⟩ []
      (fun _ => ⟨"connection refused", rfl⟩)).2.2.1⟩

/-- Claim C3: the retriability classifier accepts every `RpcError`; a
`SendError` exactly when its message contains one of the five retriable
substrings; a `ConfirmationError` exactly when its message contains
"timeout" or "connection closed" (case-sensitive substring matches); and
rejects `MaxRetriesExceeded`, `InvalidInstruction`, `InsufficientFunds` and
`Other`. -/
theorem is_retriable_error_characterization (m : String) :
    TransactionService.is_retriable_error (TransactionError.RpcError m) = true
      ∧ (TransactionService.is_retriable_error (TransactionError.SendError m) = true ↔
          (containsSub m "blockhash not found" ∨ containsSub m "timeout"
            ∨ containsSub m "socket closed" ∨ containsSub m "retry rate limit"
            ∨ containsSub m "too many requests"))
      ∧ (TransactionService.is_retriable_error (TransactionError.ConfirmationError m)
            = true ↔
          (containsSub m "timeout" ∨ containsSub m "connection closed"))
      ∧ TransactionService.is_retriable_error TransactionError.MaxRetriesExceeded = false
      ∧ TransactionService.is_retriable_error (TransactionError.InvalidInstruction m)
          = false
      ∧ TransactionService.is_retriable_error TransactionError.InsufficientFunds = false
      ∧ TransactionService.is_retriable_error (TransactionError.Other m) = false := by
  refine ⟨rfl, ?_, ?_, rfl, rfl, rfl, rfl⟩
  · simp [TransactionService.is_retriable_error, Bool.or_eq_true, strContains_iff,
      or_assoc]
  · simp [TransactionService.is_retriable_error, Bool.or_eq_true, strContains_iff]

/-- Claim C4: if every attempt before `k` fails retriably, fetches succeed
through attempt `k`, and attempt `k`'s send-and-confirm fails with a
non-retriable error `e`, then `submit_transaction` returns exactly `e`,
with exactly `k` send attempts and `k - 1` backoff sleeps in the whole
execution (none after the fatal attempt). -/
theorem submit_nonretriable_returns_first (s : TransactionService) (payer : Keypair)
    (instrs : List Instr) (k : Nat) (e : TransactionError)
    (hk1 : 1 ≤ k) (hk2 : k ≤ s.max_retries + 1)
    (hf : ∀ a, 1 ≤ a → a ≤ k → ∃ bh, s.client.get_latest_blockhash a = Except.ok bh)
    (hpre : ∀ a, 1 ≤ a → a < k → ∀ tx, ∃ err,
        s.send_and_confirm_transaction a tx = Except.error err ∧
        TransactionService.is_retriable_error err = true)
    (hke : ∀ tx, s.send_and_confirm_transaction k tx = Except.error e)
    (hnr : TransactionService.is_retriable_error e = false) :
    (s.submit_transaction payer instrs).2 = Except.error e
      ∧ sendCount (s.submit_transaction payer instrs).1 = k
      ∧ backoffCount (s.submit_transaction payer instrs).1 = k - 1 := by
  obtain ⟨h1, h2, h3⟩ := submitLoop_firstFatal s payer instrs k e hk2 hf hpre hke hnr
    k 1 (by omega) (le_refl 1) hk1
  exact ⟨h1, h2, by simpa using h3⟩

theorem submit_nonretriable_returns_first_witness :
    (serviceFatalSecond.submit_transaction ⟨42⟩ []).2
        = Except.error (TransactionError.SendError "unknown failure")
      ∧ sendCount (serviceFatalSecond.submit_transaction ⟨42⟩ []).1 = 2
      ∧ backoffCount (serviceFatalSecond.submit_transaction ⟨42⟩ []).1 = 1 :=
  submit_nonretriable_returns_first serviceFatalSecond ⟨42⟩ [] 2
    (TransactionError.SendError "unknown failure") (by decide) (by decide)
    (fun a _ _ => ⟨7, rfl⟩)
    (fun a h1 h2 tx => ⟨TransactionError.SendError "timeout",
      by
        have ha : a = 1 := by omega
        subst ha
        rfl,
      by decide⟩)
    (fun tx => rfl) (by decide)

/-- Claim C5: the send-and-confirm sequence yields `SendError` with the
transport's message when the send fails; after a successful send it yields
`ConfirmationError "Transaction was not confirmed"` when confirmation
reports `false`, `ConfirmationError` with the transport's message when
confirmation itself fails, and succeeds with the send's signature exactly
when confirmation reports `true`. -/
theorem send_and_confirm_outcomes (s : TransactionService) (attempt : Nat)
    (tx : Transaction) :
    (∀ m, s.client.send_transaction attempt tx = Except.error m →
        s.send_and_confirm_transaction attempt tx
          = Except.error (TransactionError.SendError m))
      ∧ (∀ sig, s.client.send_transaction attempt tx = Except.ok sig →
          s.client.confirm_transaction attempt sig CommitmentLevel.confirmed
            = Except.ok false →
          s.send_and_confirm_transaction attempt tx
            = Except.error
                (TransactionError.ConfirmationError "Transaction was not confirmed"))
      ∧ (∀ sig m, s.client.send_transaction attempt tx = Except.ok sig →
          s.client.confirm_transaction attempt sig CommitmentLevel.confirmed
            = Except.error m →
          s.send_and_confirm_transaction attempt tx
            = Except.error (TransactionError.ConfirmationError m))
      ∧ (∀ sig, s.send_and_confirm_transaction attempt tx = Except.ok sig ↔
          (s.client.send_transaction attempt tx = Except.ok sig ∧
            s.client.confirm_transaction attempt sig CommitmentLevel.confirmed
              = Except.ok true)) := by
  refine ⟨?_, ?_, ?_, ?_⟩
  · intro m hm
    unfold TransactionService.send_and_confirm_transaction
    simp [hm]
  · intro sig hs hc
    unfold TransactionService.send_and_confirm_transaction
    simp [hs, hc]
  · intro sig m hs hc
    unfold TransactionService.send_and_confirm_transaction
    simp [hs, hc]
  · intro sig
    constructor
    · intro h
      unfold TransactionService.send_and_confirm_transaction at h
      cases hs : s.client.send_transaction attempt tx with
      | error m => simp [hs] at h
      | ok sig' =>
        simp only [hs] at h
        cases hc : s.client.confirm_transaction attempt sig' CommitmentLevel.confirmed with
        | error m => simp [hc] at h
        | ok b =>
          simp only [hc] at h
          cases b with
          | false => simp at h
          | true =>
            have hsig : sig' = sig := by simpa using h
            subst hsig
            exact ⟨rfl, hc⟩
    · rintro ⟨hs, hc⟩
      unfold TransactionService.send_and_confirm_transaction
      simp [hs, hc]

/-- Counterexample to claim C6 as stated: with `max_retries = 57` and
always-retriable send failures, attempt 58 is reached, and its backoff
sleep is the u64-wrapped value `backoff_ms 58`, which differs from the
claimed mathematical duration `500 * 2 ^ 56` milliseconds. -/
theorem backoff_overflow_cex :
    Event.backoffSleep 58 (backoff_ms 58)
        ∈ (serviceTimeout57.submit_transaction ⟨42⟩ []).1
      ∧ backoff_ms 58 = 17582052945254416384
      ∧ backoff_ms 58 ≠ 500 * 2 ^ (58 - 2) :=
  ⟨serviceTimeout57_backoff58_mem, by decide, backoff_ms_overflow 58 (by decide)⟩

/-- Claim C6 (amended): every backoff sleep in a trace of
`submit_transaction` belongs to an attempt `k ≥ 2` and lasts
`backoff_ms k = (500 * 2 ^ (k - 2)) mod 2 ^ 64` milliseconds — equal to the
mathematical `500 * 2 ^ (k - 2)` whenever `k ≤ 57`; no backoff sleep
precedes the first attempt, and every reached attempt `k ≥ 2` does have its
backoff sleep in the trace. -/
theorem backoff_sleep_characterization (s : TransactionService) (payer : Keypair)
    (instrs : List Instr) :
    (∀ a ms, Event.backoffSleep a ms ∈ (s.submit_transaction payer instrs).1 →
        2 ≤ a ∧ ms = backoff_ms a)
      ∧ (∀ ms, Event.backoffSleep 1 ms ∉ (s.submit_transaction payer instrs).1)
      ∧ (∀ e, e ∈ (s.submit_transaction payer instrs).1 → 2 ≤ Event.attempt e →
          Event.backoffSleep (Event.attempt e) (backoff_ms (Event.attempt e))
            ∈ (s.submit_transaction payer instrs).1)
      ∧ (∀ k, 2 ≤ k → k ≤ 57 → backoff_ms k = 500 * 2 ^ (k - 2)) := by
  refine ⟨?_, ?_, ?_, backoff_ms_exact⟩
  · intro a ms hmem
    have h := submit_transaction_events s payer instrs _ hmem
    exact ⟨h.2.1, h.2.2⟩
  · intro ms hmem
    have h := submit_transaction_events s payer instrs _ hmem
    simp only [eventWithin] at h
    omega
  · intro e hmem h2
    exact submitLoop_backoff_present s payer instrs (s.max_retries + 1) 1 (by omega)
      e hmem h2

/-- Claim C7: `get_balance` makes a single balance request: it returns the
balance unchanged on success, wraps a transport failure as `RpcError` with
the transport's message, and its outcome is fully determined by that one
reply (no retry). -/
theorem get_balance_single_request (s : TransactionService) (pk : Nat) :
    (∀ b, s.client.get_balance pk = Except.ok b →
        s.get_balance pk = Except.ok b)
      ∧ (∀ m, s.client.get_balance pk = Except.error m →
          s.get_balance pk = Except.error (TransactionError.RpcError m))
      ∧ (∀ t : TransactionService, t.client.get_balance pk = s.client.get_balance pk →
          t.get_balance pk = s.get_balance pk) := by
  refine ⟨?_, ?_, ?_⟩
  · intro b hb
    unfold TransactionService.get_balance
    simp [hb]
  · intro m hm
    unfold TransactionService.get_balance
    simp [hm]
  · intro t ht
    unfold TransactionService.get_balance
    rw [ht]

/-- Claim C8: every transaction the loop hands to the send step was built
from the given instructions and payer and signed with the blockhash fetched
on that same attempt (the client's reply to that attempt's fetch), so no
blockhash is reused across attempts. -/
theorem send_uses_fresh_blockhash (s : TransactionService) (payer : Keypair)
    (instrs : List Instr) (a : Nat) (tx : Transaction)
    (h : Event.sendTx a tx ∈ (s.submit_transaction payer instrs).1) :
    s.client.get_latest_blockhash a = Except.ok tx.recent_blockhash
      ∧ tx = txBuilt payer instrs tx.recent_blockhash := by
  have hw := submit_transaction_events s payer instrs _ h
  exact ⟨hw.2.1, hw.2.2⟩

theorem send_uses_fresh_blockhash_witness :
    serviceHappy.client.get_latest_blockhash 1
        = Except.ok (txBuilt ⟨42⟩ [] 7).recent_blockhash
      ∧ txBuilt ⟨42⟩ [] 7 = txBuilt ⟨42⟩ [] (txBuilt ⟨42⟩ [] 7).recent_blockhash := by
  have hmem : Event.sendTx 1 (txBuilt ⟨42⟩ [] 7)
      ∈ (serviceHappy.submit_transaction ⟨42⟩ []).1 := by
    have e1 := submitLoop_sendOk serviceHappy ⟨42⟩ [] 1 7 99 (by decide) rfl rfl
    show Event.sendTx 1 (txBuilt ⟨42⟩ [] 7) ∈ (serviceHappy.submitLoop ⟨42⟩ [] 1).1
    rw [e1]
    simp
  exact send_uses_fresh_blockhash serviceHappy ⟨42⟩ [] 1 (txBuilt ⟨42⟩ [] 7) hmem

/-- Claim C9: every error `submit_transaction` returns is
`MaxRetriesExceeded`, a `SendError` or a `ConfirmationError`; `RpcError`,
`InvalidInstruction`, `InsufficientFunds` and `Other` are never returned. -/
theorem submit_error_taxonomy (s : TransactionService) (payer : Keypair)
    (instrs : List Instr) (e : TransactionError)
    (h : (s.submit_transaction payer instrs).2 = Except.error e) :
    e = TransactionError.MaxRetriesExceeded
      ∨ (∃ m, e = TransactionError.SendError m)
      ∨ (∃ m, e = TransactionError.ConfirmationError m) :=
  submitLoop_error_shape s payer instrs (s.max_retries + 1) 1 (by omega) e h

theorem submit_error_taxonomy_witness :
    TransactionError.MaxRetriesExceeded = TransactionError.MaxRetriesExceeded
      ∨ (∃ m, TransactionError.MaxRetriesExceeded = TransactionError.SendError m)
      ∨ (∃ m, TransactionError.MaxRetriesExceeded
          = TransactionError.ConfirmationError m) :=
  submit_error_taxonomy serviceFetchDown0 ⟨42⟩ [] TransactionError.MaxRetriesExceeded
    ((submitLoop_allFetchErr serviceFetchDown0 ⟨42⟩ []
      (fun _ => ⟨"connection refused", rfl⟩) 1 1 (by decide)).1)

/-- Claim C10: the backoff value `500 * 2u64.pow(attempt - 2)` is exact
(no u64 overflow) for every attempt `2 ≤ k ≤ 57` and wraps for every
attempt `k ≥ 58`, an attempt that is reached when `max_retries = 57` and
every failure is retriable. -/
theorem backoff_u64_overflow_threshold :
    (∀ k, 2 ≤ k → k ≤ 57 → backoff_ms k = 500 * 2 ^ (k - 2))
      ∧ (∀ k, 58 ≤ k → backoff_ms k ≠ 500 * 2 ^ (k - 2))
      ∧ ∃ (s : TransactionService) (payer : Keypair) (instrs : List Instr),
          s.max_retries = 57 ∧
          Event.backoffSleep 58 (backoff_ms 58)
            ∈ (s.submit_transaction payer instrs).1 :=
  ⟨backoff_ms_exact, backoff_ms_overflow,
    ⟨serviceTimeout57, ⟨42⟩, [], rfl, serviceTimeout57_backoff58_mem⟩⟩
